import Mathlib

/-!
Shallow embedding of the label-placement core of tangram-es:
`core/src/tile/labels/labels.cpp` (label manager, LOD admission, occlusion
resolution) and `core/src/style/textStyle.cpp` (text style builders).

Machine floats of the source are modelled as exact rationals, except the
zoom/LOD computation which uses a transcendental logarithm and is modelled
over the reals.  C `int` division is Nat division on the nonnegative sizes
involved; `size_t` wraparound is modelled explicitly where it matters.
-/

/-! ## Occlusion state machine of a Label

The `Label` class itself (label.cpp / label.h) is not part of the given
sources; only its use inside `Labels::updateOcclusions` is.  The state
relevant to occlusion resolution is therefore modelled from the spec. -/

/-- Modelled from the spec: the states of the per-label occlusion state
machine that `Labels::updateOcclusions` inspects.  `initial` is the
just-created state (spec state `NONE`), `waitOcc` is `WAIT_OCC` (eligible for
occlusion, awaiting this frame's resolution), `decided` is the mid-frame
"verdict decided" state. -/
inductive LabelState
  | initial
  | waitOcc
  | decided
deriving DecidableEq, Repr

/-- Modelled from the spec: the occlusion-relevant state of a `Label`
(class not in the given sources): the previous frame's verdict
`occludedLastFrame`, the current frame's scratch mark `occlusion`, and the
state-machine state. -/
structure OccLabel where
  occludedLastFrame : Bool
  occlusion : Bool
  state : LabelState
deriving DecidableEq, Repr

/-- Modelled from the spec: `Label::setOcclusion(bool)` marks the label as
occluded (or not) for the current frame; it touches only the per-frame
scratch mark. -/
def OccLabel.setOcclusion (l : OccLabel) (b : Bool) : OccLabel :=
  { l with occlusion := b }

/-- Modelled from the spec: `Label::occlusionSolved()` finalizes this frame's
verdict (snapshotting the scratch mark as "last frame"), resets the scratch
mark, and advances the state machine; the label is back in `WAIT_OCC` when
the next frame's resolution reads it, which this model collapses into the
transition. -/
def OccLabel.occlusionSolved (l : OccLabel) : OccLabel :=
  { occludedLastFrame := l.occlusion, occlusion := false, state := LabelState.waitOcc }

/-- Modelled from the spec: a freshly created label: not yet evaluated,
never occluded, state `NONE`. -/
def OccLabel.fresh : OccLabel :=
  { occludedLastFrame := false, occlusion := false, state := LabelState.initial }

/-- The resolve step of `Labels::updateOcclusions` (labels.cpp lines
114-123) applied to one intersecting pair `(first, second)`: three
sequential checks, each possibly calling `setOcclusion(true)`.
`setOcclusion` only changes the scratch mark, so the later checks read the
same `occludedLastFrame`/`state` values as the earlier ones, exactly as the
aliased C++ objects do. -/
def resolvePair (p : OccLabel × OccLabel) : OccLabel × OccLabel :=
  let l1 := p.1
  let l2 := p.2
  let l2 := if l1.occludedLastFrame = false ∧ l2.state = LabelState.waitOcc then
      l2.setOcclusion true else l2
  let l1 := if l2.occludedLastFrame = false ∧ l1.state = LabelState.waitOcc then
      l1.setOcclusion true else l1
  let l1 := if l2.occludedLastFrame = false then l1.setOcclusion true else l1
  (l1, l2)

/-- The resolve tie-break as the spec words it, denotationally: B is marked
occluded when A was not occluded last frame and B is in `WAIT_OCC`; A is
marked occluded when B was not occluded last frame and A is in `WAIT_OCC`,
or unconditionally when B was not occluded last frame; nothing else is
marked. -/
def resolvePairSpec (p : OccLabel × OccLabel) : OccLabel × OccLabel :=
  let A := p.1
  let B := p.2
  let markB : Prop := A.occludedLastFrame = false ∧ B.state = LabelState.waitOcc
  let markA : Prop := (B.occludedLastFrame = false ∧ A.state = LabelState.waitOcc) ∨
      B.occludedLastFrame = false
  (if markA then A.setOcclusion true else A,
   if markB then B.setOcclusion true else B)

/-- Reachable states of the occlusion machine: a label starts fresh and
evolves only through `setOcclusion` and `occlusionSolved`. -/
inductive OccReachable : OccLabel → Prop
  | init : OccReachable OccLabel.fresh
  | set (b : Bool) {l : OccLabel} : OccReachable l → OccReachable (l.setOcclusion b)
  | solved {l : OccLabel} : OccReachable l → OccReachable l.occlusionSolved

/-- A reachable label that carries a previous-frame occlusion verdict has
been through `occlusionSolved`, hence is in `WAIT_OCC` when the next
resolution reads it. -/
lemma OccReachable.lastOcc_waitOcc {l : OccLabel} (h : OccReachable l)
    (hocc : l.occludedLastFrame = true) : l.state = LabelState.waitOcc := by
  induction h with
  | init => simp [OccLabel.fresh] at hocc
  | set b _ ih => exact ih hocc
  | solved _ _ => rfl

/-- C1: for every intersecting pair delivered by the narrow phase, the
resolve step applies exactly the three checks of the spec in that order —
mark B when A was unoccluded last frame and B is in `WAIT_OCC`; mark A when
B was unoccluded last frame and A is in `WAIT_OCC`; mark A unconditionally
when B was unoccluded last frame — and produces no other occlusion marks:
it agrees with the spec's denotational description on every pair, and it
never changes a label's `occludedLastFrame` or state. -/
theorem resolvePair_matches_spec (p : OccLabel × OccLabel) :
    resolvePair p = resolvePairSpec p ∧
    (resolvePair p).1.occludedLastFrame = p.1.occludedLastFrame ∧
    (resolvePair p).2.occludedLastFrame = p.2.occludedLastFrame ∧
    (resolvePair p).1.state = p.1.state ∧
    (resolvePair p).2.state = p.2.state := by
  obtain ⟨⟨a1, a2, a3⟩, ⟨b1, b2, b3⟩⟩ := p
  cases a1 <;> cases b1 <;> cases a3 <;> cases b3 <;>
    simp [resolvePair, resolvePairSpec, OccLabel.setOcclusion]

/-- C2: hysteresis.  If A was not occluded last frame and B was, then — in
either orientation of the stored pair — one resolve step leaves A unmarked
and marks B, and after `occlusionSolved` A's verdict is "not occluded" and
B's is "occluded".  Both labels enter the pass with a clear scratch mark,
as `occlusionSolved` left them. -/
theorem resolvePair_hysteresis (A B : OccLabel)
    (hA : OccReachable A) (hB : OccReachable B)
    (hAlast : A.occludedLastFrame = false) (hBlast : B.occludedLastFrame = true)
    (hAocc : A.occlusion = false) (hBocc : B.occlusion = false) :
    (resolvePair (A, B)).1.occlusion = false ∧
    (resolvePair (A, B)).2.occlusion = true ∧
    (resolvePair (B, A)).2.occlusion = false ∧
    (resolvePair (B, A)).1.occlusion = true ∧
    ((resolvePair (A, B)).1.occlusionSolved).occludedLastFrame = false ∧
    ((resolvePair (A, B)).2.occlusionSolved).occludedLastFrame = true ∧
    ((resolvePair (B, A)).2.occlusionSolved).occludedLastFrame = false ∧
    ((resolvePair (B, A)).1.occlusionSolved).occludedLastFrame = true := by
  have hBstate : B.state = LabelState.waitOcc := hB.lastOcc_waitOcc hBlast
  clear hA hB
  obtain ⟨a1, a2, a3⟩ := A
  obtain ⟨b1, b2, b3⟩ := B
  simp only at hAlast hBlast hAocc hBocc hBstate
  subst hAlast hBlast hAocc hBocc hBstate
  simp [resolvePair, OccLabel.setOcclusion, OccLabel.occlusionSolved]

/-- Witness for C2 at a concrete pair: A visible last frame, B occluded
last frame, both reachable and both entering the frame with a clear
scratch mark. -/
theorem resolvePair_hysteresis_witness :
    (resolvePair (⟨false, false, LabelState.waitOcc⟩, ⟨true, false, LabelState.waitOcc⟩)).1.occlusion = false ∧
    (resolvePair (⟨false, false, LabelState.waitOcc⟩, ⟨true, false, LabelState.waitOcc⟩)).2.occlusion = true ∧
    (resolvePair (⟨true, false, LabelState.waitOcc⟩, ⟨false, false, LabelState.waitOcc⟩)).2.occlusion = false ∧
    (resolvePair (⟨true, false, LabelState.waitOcc⟩, ⟨false, false, LabelState.waitOcc⟩)).1.occlusion = true ∧
    ((resolvePair (⟨false, false, LabelState.waitOcc⟩, ⟨true, false, LabelState.waitOcc⟩)).1.occlusionSolved).occludedLastFrame = false ∧
    ((resolvePair (⟨false, false, LabelState.waitOcc⟩, ⟨true, false, LabelState.waitOcc⟩)).2.occlusionSolved).occludedLastFrame = true ∧
    ((resolvePair (⟨true, false, LabelState.waitOcc⟩, ⟨false, false, LabelState.waitOcc⟩)).2.occlusionSolved).occludedLastFrame = false ∧
    ((resolvePair (⟨true, false, LabelState.waitOcc⟩, ⟨false, false, LabelState.waitOcc⟩)).1.occlusionSolved).occludedLastFrame = true :=
  resolvePair_hysteresis ⟨false, false, LabelState.waitOcc⟩ ⟨true, false, LabelState.waitOcc⟩
    (OccReachable.solved OccReachable.init)
    (OccReachable.solved (OccReachable.set true OccReachable.init))
    rfl rfl rfl rfl

/-! ## Label units and the merge-and-prune loop of `Labels::updateOcclusions` -/

/-- Identifier of the tile that produced a label (`TileID`); only the zoom
coordinate is used by this core. -/
structure TileID where
  z : Int
deriving DecidableEq, Repr

/-- A `LabelUnit`: the manager's weak association between a label, its
originating tile and the requesting style.  `weakLabel` is the result of
locking the weak reference: `none` when the owning tile is gone. -/
structure LabelUnit (α : Type) where
  weakLabel : Option α
  tileID : TileID
  styleName : String
deriving DecidableEq, Repr

/-- `LabelUnit::getWeakLabel`: resolve the weak reference, `none` when the
label is gone. -/
def LabelUnit.getWeakLabel (u : LabelUnit α) : Option α :=
  u.weakLabel

/-- The prune-and-collect loop of `Labels::updateOcclusions` (labels.cpp
lines 82-97): scan the authoritative list by index; a unit whose weak label
is gone is removed by moving the last element into its slot and popping the
back (the index is re-examined, mirroring `m_labelUnits[i--] = ...;
pop_back(); continue;` followed by the loop increment); a live label with
`canOcclude()` contributes to the collected candidate list (the AABB
array). -/
def pruneCollect (canOcc : α → Bool) (units : List (LabelUnit α)) (i : Nat) :
    List (LabelUnit α) × List α :=
  if h : i < units.length then
    match (units.get ⟨i, h⟩).getWeakLabel with
    | none =>
        pruneCollect canOcc
          ((units.set i (units.get ⟨units.length - 1, by omega⟩)).dropLast) i
    | some label =>
        if canOcc label then
          let r := pruneCollect canOcc units (i + 1)
          (r.1, label :: r.2)
        else
          pruneCollect canOcc units (i + 1)
  else
    (units, [])
termination_by units.length - i
decreasing_by
  all_goals try simp only [List.length_dropLast, List.length_set]
  all_goals omega

/-- The merge step (labels.cpp lines 71-77) — append the pending units to
the authoritative list and clear the pending buffer — followed by the
prune-and-collect loop starting at index 0. -/
def updateOcclusionsMergePrune (canOcc : α → Bool)
    (labelUnits pendingLabelUnits : List (LabelUnit α)) :
    List (LabelUnit α) × List α :=
  pruneCollect canOcc (labelUnits ++ pendingLabelUnits) 0

/-- Unfolding of the prune-and-collect loop at an exhausted index. -/
lemma pruneCollect_exit (canOcc : α → Bool) (units : List (LabelUnit α)) (i : Nat)
    (hge : ¬ i < units.length) : pruneCollect canOcc units i = (units, []) := by
  rw [pruneCollect.eq_def, dif_neg hge]

/-- Unfolding of the prune-and-collect loop at a dead unit: the last
element is moved into the slot, the back is popped, and the same index is
re-scanned. -/
lemma pruneCollect_dead (canOcc : α → Bool) (units : List (LabelUnit α)) (i : Nat)
    (h : i < units.length) (hdead : (units.get ⟨i, h⟩).getWeakLabel = none) :
    pruneCollect canOcc units i =
      pruneCollect canOcc
        ((units.set i (units.get ⟨units.length - 1, by omega⟩)).dropLast) i := by
  rw [pruneCollect.eq_def, dif_pos h, hdead]

/-- Unfolding of the prune-and-collect loop at a live unit: the scan moves
on; the pruned list is unaffected by whether the label was collected. -/
lemma pruneCollect_live_step (canOcc : α → Bool) (units : List (LabelUnit α)) (i : Nat)
    (h : i < units.length) (label : α)
    (hlive : (units.get ⟨i, h⟩).getWeakLabel = some label) :
    (pruneCollect canOcc units i).1 = (pruneCollect canOcc units (i + 1)).1 := by
  rw [pruneCollect.eq_def, dif_pos h, hlive]
  dsimp only
  by_cases hc : canOcc label = true
  · rw [if_pos hc]
  · rw [if_neg hc]

/-- Every unit before the scan position is live, and stays exactly where it
is; by induction on the loop measure `units.length - i`, every unit of the
final pruned list resolves to a live label. -/
lemma pruneCollect_no_dead (canOcc : α → Bool) :
    ∀ (n : Nat) (units : List (LabelUnit α)) (i : Nat), units.length - i ≤ n →
      (∀ u ∈ units.take i, (u.getWeakLabel).isSome) →
      ∀ u ∈ (pruneCollect canOcc units i).1, (u.getWeakLabel).isSome := by
  intro n
  induction n with
  | zero =>
    intro units i hn hpre u hu
    have hge : ¬ i < units.length := by omega
    rw [pruneCollect_exit canOcc units i hge] at hu
    refine hpre u ?_
    rw [List.take_of_length_le (by omega)]
    exact hu
  | succ n ih =>
    intro units i hn hpre u hu
    by_cases h : i < units.length
    · cases hw : (units.get ⟨i, h⟩).getWeakLabel with
      | none =>
        rw [pruneCollect_dead canOcc units i h hw] at hu
        refine ih _ i ?_ ?_ u hu
        · simp only [List.length_dropLast, List.length_set]
          omega
        · intro v hv
          refine hpre v ?_
          have hlen : ((units.set i (units.get ⟨units.length - 1, by omega⟩)).dropLast).take i =
              units.take i := by
            apply List.ext_getElem
            · simp only [List.length_take, List.length_dropLast, List.length_set]
              omega
            · intro k hk1 hk2
              have hki : k < i := by
                simp only [List.length_take, List.length_dropLast, List.length_set] at hk1
                omega
              rw [List.getElem_take, List.getElem_take, List.getElem_dropLast,
                List.getElem_set_ne (by omega)]
          rw [hlen] at hv
          exact hv
      | some label =>
        rw [pruneCollect_live_step canOcc units i h label hw] at hu
        refine ih units (i + 1) (by omega) ?_ u hu
        intro v hv
        rw [List.take_succ] at hv
        rcases List.mem_append.mp hv with hv' | hv'
        · exact hpre v hv'
        · have hvd : v = units.get ⟨i, h⟩ := by
            rw [List.getElem?_eq_getElem h] at hv'
            simpa using hv'
          rw [hvd, hw]
          rfl
    · rw [pruneCollect_exit canOcc units i h] at hu
      refine hpre u ?_
      rw [List.take_of_length_le (by omega)]
      exact hu

/-- C3: after the merge-and-prune phase of `updateOcclusions`, every
`LabelUnit` remaining in the authoritative list resolves to a live label
(no entry whose weak reference reports null survives), and a dead entry is
removed exactly by moving the last element into its slot and popping the
back before re-scanning the same index (so the surviving order carries no
significance). -/
theorem mergePrune_no_dangling (canOcc : α → Bool)
    (labelUnits pendingLabelUnits : List (LabelUnit α)) :
    (∀ u ∈ (updateOcclusionsMergePrune canOcc labelUnits pendingLabelUnits).1,
       (u.getWeakLabel).isSome) ∧
    (∀ (units : List (LabelUnit α)) (i : Nat) (h : i < units.length),
       (units.get ⟨i, h⟩).getWeakLabel = none →
       pruneCollect canOcc units i =
         pruneCollect canOcc
           ((units.set i (units.get ⟨units.length - 1, by omega⟩)).dropLast) i) := by
  constructor
  · intro u hu
    exact pruneCollect_no_dead canOcc (labelUnits ++ pendingLabelUnits).length _ 0 (by omega)
      (by intro v hv; simp at hv) u hu
  · intro units i h hdead
    exact pruneCollect_dead canOcc units i h hdead

/-- A concrete run of the merge-and-prune phase: one dead unit in the
authoritative list, one live pending unit; the dead entry is pruned and the
live one survives and is collected. -/
lemma mergePrune_concrete :
    updateOcclusionsMergePrune (fun _ : Bool => true)
      [⟨none, ⟨0⟩, "s1"⟩] [⟨some true, ⟨0⟩, "s2"⟩] =
      ([⟨some true, ⟨0⟩, "s2"⟩], [true]) := by
  simp [updateOcclusionsMergePrune, pruneCollect, LabelUnit.getWeakLabel]

/-- Witness for C3 at the concrete input of `mergePrune_concrete`: the
surviving unit resolves, and the removal-step equation holds at the dead
unit of a concrete two-element list. -/
theorem mergePrune_no_dangling_witness :
    (((⟨some true, ⟨0⟩, "s2"⟩ : LabelUnit Bool)).getWeakLabel).isSome ∧
    pruneCollect (fun _ : Bool => true) [⟨none, ⟨0⟩, "s1"⟩, ⟨some true, ⟨0⟩, "s2"⟩] 0 =
      pruneCollect (fun _ : Bool => true)
        ((([⟨none, ⟨0⟩, "s1"⟩, ⟨some true, ⟨0⟩, "s2"⟩] :
            List (LabelUnit Bool)).set 0
            (([⟨none, ⟨0⟩, "s1"⟩, ⟨some true, ⟨0⟩, "s2"⟩] :
              List (LabelUnit Bool)).get ⟨2 - 1, by decide⟩)).dropLast) 0 :=
  ⟨(mergePrune_no_dangling (fun _ : Bool => true)
      [⟨none, ⟨0⟩, "s1"⟩] [⟨some true, ⟨0⟩, "s2"⟩]).1 ⟨some true, ⟨0⟩, "s2"⟩
      (by rw [mergePrune_concrete]; simp),
   (mergePrune_no_dangling (fun _ : Bool => true) [] []).2
      [⟨none, ⟨0⟩, "s1"⟩, ⟨some true, ⟨0⟩, "s2"⟩] 0 (by decide) rfl⟩

/-! ## LOD admission and label submission (`Labels::addTextLabel`,
`Labels::addSpriteLabel`, `Labels::addLabel`)

C float arithmetic of the zoom computation is modelled over the reals.
`MAX_LOD` and `View::s_maxZoom` are constants defined outside the given
sources (labels.h / view code) and are taken as parameters `maxLod` and
`maxZoom`. -/

/-- `Labels::LODDiscardFunc` (labels.cpp line 14-16):
`MIN(floor(((log(-zoom + (maxZoom + 2)) / log(maxZoom + 2) * maxZoom) * 0.5)), MAX_LOD)`
cast to `int`. -/
noncomputable def LODDiscardFunc (maxLod : ℤ) (maxZoom zoom : ℝ) : ℤ :=
  min ⌊Real.log (-zoom + (maxZoom + 2)) / Real.log (maxZoom + 2) * maxZoom * 0.5⌋ maxLod

/-- Screen-space transform of a label (`Label::Transform`): two anchor
positions. -/
abbrev Transform := (ℚ × ℚ) × (ℚ × ℚ)

/-- Geometry type tag of a label (`Label::Type`). -/
inductive LabelType
  | point
  | line
deriving DecidableEq, Repr

/-- A label as constructed by the manager: a `TextLabel` (transform, text,
per-buffer text id, geometry type) or a `SpriteLabel` (transform, size). -/
inductive Label
  | text (tr : Transform) (str : String) (textID : Nat) (ty : LabelType)
  | sprite (tr : Transform) (size : ℚ × ℚ)
deriving DecidableEq, Repr

/-- Modelled from the spec: the font context's current rasterization buffer
(`m_ftContext->getCurrentBuffer()`), an external collaborator: it hands out
fresh text ids (`genTextID`) and rasterization may succeed or fail per
text. -/
structure Buffer where
  nextTextID : Nat
  rasterizes : String → Bool

/-- A map tile as seen by this core: its id and the labels registered on it
via `MapTile::addLabel`. -/
structure MapTile where
  id : TileID
  labels : List (String × Label)

/-- The state of the label manager `Labels`: authoritative list, pending
queue, current zoom, and the font context's current buffer (`none` when no
rasterization buffer is available). -/
structure Labels where
  labelUnits : List (LabelUnit Label)
  pendingLabelUnits : List (LabelUnit Label)
  currentZoom : ℝ
  ftBuffer : Option Buffer

/-- `Labels::addLabel` (labels.cpp lines 44-54): update the label's screen
transform (external view math, which does not touch the label sets),
register the label with its tile, and append a `LabelUnit` to the pending
queue under the mutex (a no-op in this sequential model). -/
def Labels.addLabel (st : Labels) (tile : MapTile) (styleName : String) (label : Label) :
    Labels × MapTile :=
  ({ st with pendingLabelUnits :=
      st.pendingLabelUnits ++ [⟨some label, tile.id, styleName⟩] },
   { tile with labels := tile.labels ++ [(styleName, label)] })

/-- `Labels::addTextLabel` (labels.cpp lines 18-42): LOD admission first;
then a text label is built against the current rasterization buffer (which
hands out a text id), rasterized, and — only on success — registered and
enqueued; with no current buffer, or on rasterization failure, null is
returned. -/
noncomputable def Labels.addTextLabel (maxLod : ℤ) (maxZoom : ℝ) (st : Labels)
    (tile : MapTile) (styleName : String) (tr : Transform) (str : String)
    (ty : LabelType) : Option Label × Labels × MapTile :=
  if st.currentZoom - (tile.id.z : ℝ) > ((LODDiscardFunc maxLod maxZoom st.currentZoom : ℤ) : ℝ) then
    (none, st, tile)
  else
    match st.ftBuffer with
    | some buf =>
        let textID := buf.nextTextID
        let buf2 := { buf with nextTextID := buf.nextTextID + 1 }
        let label := Label.text tr str textID ty
        if buf2.rasterizes str then
          let r := Labels.addLabel { st with ftBuffer := some buf2 } tile styleName label
          (some label, r.1, r.2)
        else
          (none, { st with ftBuffer := some buf2 }, tile)
    | none => (none, st, tile)

/-- `Labels::addSpriteLabel` (labels.cpp lines 56-65): LOD admission first;
otherwise a sprite label is constructed unconditionally, registered and
enqueued. -/
noncomputable def Labels.addSpriteLabel (maxLod : ℤ) (maxZoom : ℝ) (st : Labels)
    (tile : MapTile) (styleName : String) (tr : Transform) (size : ℚ × ℚ) :
    Option Label × Labels × MapTile :=
  if st.currentZoom - (tile.id.z : ℝ) > ((LODDiscardFunc maxLod maxZoom st.currentZoom : ℤ) : ℝ) then
    (none, st, tile)
  else
    let label := Label.sprite tr size
    let r := Labels.addLabel st tile styleName label
    (some label, r.1, r.2)

/-- C4: `addTextLabel` returns "no label produced" in exactly three cases —
LOD rejection, no current rasterization buffer, or rasterization failure —
and in every such case the pending queue, the authoritative list, and the
tile's label registry are left unchanged. -/
theorem addTextLabel_none_iff (maxLod : ℤ) (maxZoom : ℝ) (st : Labels) (tile : MapTile)
    (styleName : String) (tr : Transform) (str : String) (ty : LabelType) :
    ((Labels.addTextLabel maxLod maxZoom st tile styleName tr str ty).1 = none ↔
      st.currentZoom - (tile.id.z : ℝ) >
        ((LODDiscardFunc maxLod maxZoom st.currentZoom : ℤ) : ℝ) ∨
      st.ftBuffer = none ∨
      (∃ buf, st.ftBuffer = some buf ∧ buf.rasterizes str = false)) ∧
    ((Labels.addTextLabel maxLod maxZoom st tile styleName tr str ty).1 = none →
      (Labels.addTextLabel maxLod maxZoom st tile styleName tr str ty).2.1.pendingLabelUnits =
        st.pendingLabelUnits ∧
      (Labels.addTextLabel maxLod maxZoom st tile styleName tr str ty).2.1.labelUnits =
        st.labelUnits ∧
      (Labels.addTextLabel maxLod maxZoom st tile styleName tr str ty).2.2 = tile) := by
  by_cases hlod : st.currentZoom - (tile.id.z : ℝ) >
      ((LODDiscardFunc maxLod maxZoom st.currentZoom : ℤ) : ℝ)
  · constructor
    · simp [Labels.addTextLabel, if_pos hlod, hlod]
    · intro _
      simp [Labels.addTextLabel, if_pos hlod]
  · cases hbuf : st.ftBuffer with
    | none =>
      constructor
      · simp [Labels.addTextLabel, if_neg hlod, hbuf]
      · intro _
        simp [Labels.addTextLabel, if_neg hlod, hbuf]
    | some buf =>
      by_cases hrast : buf.rasterizes str = true
      · constructor
        · simp [Labels.addTextLabel, if_neg hlod, hbuf, hrast, hlod, Labels.addLabel]
        · intro hnone
          exfalso
          simp [Labels.addTextLabel, if_neg hlod, hbuf, hrast, Labels.addLabel] at hnone
      · have hrast' : buf.rasterizes str = false := by
          cases h : buf.rasterizes str
          · rfl
          · exact absurd h hrast
        constructor
        · simp [Labels.addTextLabel, if_neg hlod, hbuf, hrast', hlod]
        · intro _
          simp [Labels.addTextLabel, if_neg hlod, hbuf, hrast']

/-- Witness for C4: with no current rasterization buffer the call returns
null and leaves the queues and the tile untouched. -/
theorem addTextLabel_none_iff_witness :
    (Labels.addTextLabel 6 16 ⟨[], [], 0, none⟩ ⟨⟨0⟩, []⟩ "style" ((0, 0), (0, 0))
      "hello" LabelType.point).1 = none ∧
    (Labels.addTextLabel 6 16 ⟨[], [], 0, none⟩ ⟨⟨0⟩, []⟩ "style" ((0, 0), (0, 0))
      "hello" LabelType.point).2.1.pendingLabelUnits = [] :=
  have h := addTextLabel_none_iff 6 16 ⟨[], [], 0, none⟩ ⟨⟨0⟩, []⟩ "style" ((0, 0), (0, 0))
    "hello" LabelType.point
  have hn := h.1.mpr (Or.inr (Or.inl rfl))
  ⟨hn, (h.2 hn).1⟩

/-- C5: the LOD threshold is monotonically non-decreasing as the zoom
shrinks (equivalently, as the delta `currentZoom - tileZoom` shrinks for a
fixed tile), never exceeds the `MAX_LOD` cap, and a construction call whose
zoom delta exceeds the threshold returns null with the manager state and
tile untouched — before any label is allocated. -/
theorem LODDiscardFunc_monotone_cap_guard (maxLod : ℤ) (maxZoom z1 z2 : ℝ)
    (hmz : 0 ≤ maxZoom) (h12 : z1 ≤ z2) (h2 : z2 < maxZoom + 2) :
    LODDiscardFunc maxLod maxZoom z2 ≤ LODDiscardFunc maxLod maxZoom z1 ∧
    LODDiscardFunc maxLod maxZoom z1 ≤ maxLod ∧
    (∀ (st : Labels) (tile : MapTile) (styleName : String) (tr : Transform)
       (str : String) (ty : LabelType) (size : ℚ × ℚ),
      st.currentZoom - (tile.id.z : ℝ) >
          ((LODDiscardFunc maxLod maxZoom st.currentZoom : ℤ) : ℝ) →
      Labels.addTextLabel maxLod maxZoom st tile styleName tr str ty = (none, st, tile) ∧
      Labels.addSpriteLabel maxLod maxZoom st tile styleName tr size = (none, st, tile)) := by
  refine ⟨?_, ?_, ?_⟩
  · unfold LODDiscardFunc
    refine min_le_min (Int.floor_le_floor ?_) le_rfl
    have hlog : Real.log (-z2 + (maxZoom + 2)) ≤ Real.log (-z1 + (maxZoom + 2)) := by
      apply Real.log_le_log (by linarith)
      linarith
    have hlogpos : 0 < Real.log (maxZoom + 2) := Real.log_pos (by linarith)
    have hdiv : Real.log (-z2 + (maxZoom + 2)) / Real.log (maxZoom + 2) ≤
        Real.log (-z1 + (maxZoom + 2)) / Real.log (maxZoom + 2) := by
      apply div_le_div_of_nonneg_right hlog hlogpos.le
    nlinarith [hdiv, hmz]
  · exact min_le_right _ _
  · intro st tile styleName tr str ty size hgt
    constructor
    · simp [Labels.addTextLabel, if_pos hgt]
    · simp [Labels.addSpriteLabel, if_pos hgt]

/-- Witness for C5 at `maxLod = 6`, `maxZoom = 16`, zooms 0 and 1. -/
theorem LODDiscardFunc_monotone_cap_guard_witness :
    LODDiscardFunc 6 16 1 ≤ LODDiscardFunc 6 16 0 ∧
    LODDiscardFunc 6 16 0 ≤ 6 ∧
    (∀ (st : Labels) (tile : MapTile) (styleName : String) (tr : Transform)
       (str : String) (ty : LabelType) (size : ℚ × ℚ),
      st.currentZoom - (tile.id.z : ℝ) > ((LODDiscardFunc 6 16 st.currentZoom : ℤ) : ℝ) →
      Labels.addTextLabel 6 16 st tile styleName tr str ty = (none, st, tile) ∧
      Labels.addSpriteLabel 6 16 st tile styleName tr size = (none, st, tile)) :=
  LODDiscardFunc_monotone_cap_guard 6 16 0 1 (by norm_num) (by norm_num) (by norm_num)

/-- Concrete value of the LOD threshold at `maxLod = 6`, `maxZoom = 16`,
zoom 0: the logarithm ratio is 1, the floor is 8, and the cap brings it to
6. -/
lemma LODDiscardFunc_6_16_0 : LODDiscardFunc 6 16 0 = 6 := by
  unfold LODDiscardFunc
  have h18 : (-(0 : ℝ) + (16 + 2)) = 18 := by norm_num
  rw [h18]
  have hne : Real.log (16 + 2) ≠ 0 := ne_of_gt (Real.log_pos (by norm_num))
  have h1 : Real.log 18 / Real.log (16 + 2) = 1 := by
    rw [show ((16 : ℝ) + 2) = 18 by norm_num]
    exact div_self (by rw [show ((16 : ℝ) + 2) = 18 by norm_num] at hne; exact hne)
  rw [h1]
  have : ((1 : ℝ) * 16 * 0.5) = ((8 : ℤ) : ℝ) := by norm_num
  rw [this, Int.floor_intCast]
  norm_num

/-- C10: `addSpriteLabel` returns null exactly when the LOD admission check
rejects the tile; whenever LOD admits, a sprite label is constructed,
registered with the tile, and enqueued — there is no rasterization or
buffer-availability failure path. -/
theorem addSpriteLabel_none_iff (maxLod : ℤ) (maxZoom : ℝ) (st : Labels) (tile : MapTile)
    (styleName : String) (tr : Transform) (size : ℚ × ℚ) :
    ((Labels.addSpriteLabel maxLod maxZoom st tile styleName tr size).1 = none ↔
      st.currentZoom - (tile.id.z : ℝ) >
        ((LODDiscardFunc maxLod maxZoom st.currentZoom : ℤ) : ℝ)) ∧
    (¬ st.currentZoom - (tile.id.z : ℝ) >
        ((LODDiscardFunc maxLod maxZoom st.currentZoom : ℤ) : ℝ) →
      (Labels.addSpriteLabel maxLod maxZoom st tile styleName tr size).1 =
        some (Label.sprite tr size) ∧
      (Labels.addSpriteLabel maxLod maxZoom st tile styleName tr size).2.1.pendingLabelUnits =
        st.pendingLabelUnits ++ [⟨some (Label.sprite tr size), tile.id, styleName⟩] ∧
      (Labels.addSpriteLabel maxLod maxZoom st tile styleName tr size).2.1.labelUnits =
        st.labelUnits ∧
      (Labels.addSpriteLabel maxLod maxZoom st tile styleName tr size).2.2.labels =
        tile.labels ++ [(styleName, Label.sprite tr size)]) ∧
    (st.currentZoom - (tile.id.z : ℝ) >
        ((LODDiscardFunc maxLod maxZoom st.currentZoom : ℤ) : ℝ) →
      Labels.addSpriteLabel maxLod maxZoom st tile styleName tr size = (none, st, tile)) := by
  by_cases hlod : st.currentZoom - (tile.id.z : ℝ) >
      ((LODDiscardFunc maxLod maxZoom st.currentZoom : ℤ) : ℝ)
  · refine ⟨?_, fun h => absurd hlod h, fun _ => ?_⟩
    · simp [Labels.addSpriteLabel, if_pos hlod, hlod]
    · simp [Labels.addSpriteLabel, if_pos hlod]
  · refine ⟨?_, fun _ => ?_, fun h => absurd h hlod⟩
    · simp [Labels.addSpriteLabel, if_neg hlod, Labels.addLabel, hlod]
    · simp [Labels.addSpriteLabel, if_neg hlod, Labels.addLabel]

/-- Witness for C10: at zoom 0 on a zoom-0 tile with threshold 6, LOD
admits, and the sprite label is produced and enqueued. -/
theorem addSpriteLabel_none_iff_witness :
    (Labels.addSpriteLabel 6 16 ⟨[], [], 0, none⟩ ⟨⟨0⟩, []⟩ "style" ((0, 0), (0, 0))
      (1, 1)).1 = some (Label.sprite ((0, 0), (0, 0)) (1, 1)) ∧
    (Labels.addSpriteLabel 6 16 ⟨[], [], 0, none⟩ ⟨⟨0⟩, []⟩ "style" ((0, 0), (0, 0))
      (1, 1)).2.1.pendingLabelUnits =
      [⟨some (Label.sprite ((0, 0), (0, 0)) (1, 1)), ⟨0⟩, "style"⟩] :=
  have hadmit : ¬ ((⟨[], [], 0, none⟩ : Labels).currentZoom - ((⟨⟨0⟩, []⟩ : MapTile).id.z : ℝ) >
      ((LODDiscardFunc 6 16 (⟨[], [], 0, none⟩ : Labels).currentZoom : ℤ) : ℝ)) := by
    show ¬ ((0 : ℝ) - ((0 : ℤ) : ℝ) > ((LODDiscardFunc 6 16 0 : ℤ) : ℝ))
    rw [LODDiscardFunc_6_16_0]
    norm_num
  have h := (addSpriteLabel_none_iff 6 16 ⟨[], [], 0, none⟩ ⟨⟨0⟩, []⟩ "style"
    ((0, 0), (0, 0)) (1, 1)).2.1 hadmit
  ⟨h.1, h.2.1⟩

/-! ## Text style builders (`textStyle.cpp`)

Screen-space points are exact rationals.  The segment-length comparison
`glm::length(p2 - p1) < minLength` of the source is modelled as the
equivalent squared comparison `lengthSq (p2 - p1) < minLength * minLength`
(both sides of the original are nonnegative). -/

/-- Modelled from the spec: feature properties, a key-value lookup; the
string getter returns the value for a key and the empty string when the key
is absent. -/
structure Properties where
  getString : String → String

/-- Text transform mode of `Parameters` (enum defined in the header, not
among the given sources; the header default is the identity transform). -/
inductive TextTransform
  | noTransform
  | capitalize
  | lowercase
  | uppercase
deriving DecidableEq, Repr

/-- Modelled from the spec: a drawing rule as read through
`_rule.get(StyleParamKey::..., out)`; a key absent from the rule leaves the
output at its default, so each field here holds the value the sequence of
`get` calls in `TextStyle::parseRule` ends up with. -/
structure DrawRule where
  fontFamily : String
  fontWeight : String
  fontStyle : String
  fontSize : ℚ
  fill : ℕ
  offset : ℚ × ℚ
  strokeColor : ℕ
  strokeWidth : ℚ
  transform : String
  visible : Bool
  priority : ℚ
  textSource : String
deriving DecidableEq, Repr

/-- The style-builder intermediate `Parameters` (textStyle.h). -/
structure Parameters where
  fontKey : String
  fontSize : ℚ
  fill : ℕ
  offset : ℚ × ℚ
  strokeColor : ℕ
  strokeWidth : ℚ
  textSource : String
  transform : TextTransform
  visible : Bool
  priority : ℚ
  blurSpread : ℚ
deriving DecidableEq, Repr

/-- The state of a `TextStyle` used by `parseRule`: the pixel-density scale
and the signed-distance-field flags. -/
structure TextStyle where
  pixelScale : ℚ
  sdf : Bool
  sdfMultisampling : Bool
deriving DecidableEq, Repr

/-- `TextStyle::parseRule` (textStyle.cpp lines 54-91): read the rule's
style parameters, map the transform string through the three comparisons
(capitalize, lowercase, uppercase), build the font key, and apply the
global fontsize/sdf-blur operations. -/
def TextStyle.parseRule (ts : TextStyle) (rule : DrawRule) : Parameters :=
  let transform :=
    if rule.transform = "capitalize" then TextTransform.capitalize
    else if rule.transform = "lowercase" then TextTransform.lowercase
    else if rule.transform = "uppercase" then TextTransform.uppercase
    else TextTransform.noTransform
  let emSize := rule.fontSize / 16
  { fontKey := rule.fontFamily ++ "_" ++ rule.fontWeight ++ "_" ++ rule.fontStyle
    fontSize := rule.fontSize * ts.pixelScale
    fill := rule.fill
    offset := rule.offset
    strokeColor := rule.strokeColor
    strokeWidth := rule.strokeWidth
    textSource := rule.textSource
    transform := transform
    visible := rule.visible
    priority := rule.priority
    blurSpread := if ts.sdf then emSize * 5 else 0 }

/-- `TextStyle::applyTextSource` (textStyle.cpp lines 101-107): a non-empty
explicit text source wins; otherwise fall back to the feature's "name"
property. -/
def applyTextSource (params : Parameters) (props : Properties) : String :=
  if params.textSource.isEmpty then props.getString "name" else params.textSource

/-- `Label::Options` as filled by the text style. -/
structure LabelOptions where
  color : ℕ
  priority : ℚ
  offset : ℚ × ℚ
deriving DecidableEq, Repr

/-- `TextStyle::optionsFromTextParams` (textStyle.cpp lines 93-99). -/
def optionsFromTextParams (params : Parameters) : LabelOptions :=
  { color := params.fill, priority := params.priority, offset := params.offset }

/-- One label submission into the text buffer: the arguments of
`buffer.addLabel(text, {p1, p2}, type, params, options)`. -/
structure BuiltLabel where
  text : String
  t1 : ℚ × ℚ
  t2 : ℚ × ℚ
  ty : LabelType
  pars : Parameters
  opts : LabelOptions
deriving DecidableEq, Repr

/-- Squared euclidean norm of a 2-vector. -/
def lengthSq (v : ℚ × ℚ) : ℚ :=
  v.1 * v.1 + v.2 * v.2

/-- The minimum screen length threshold of `buildLine` (textStyle.cpp line
140). -/
def minLength : ℚ := 15 / 100

/-- C `size_t` subtraction of 1: `n - 1` modulo `2^64`, which underflows to
`2^64 - 1` at `n = 0`. -/
def sizeTSub1 (n : Nat) : Nat :=
  (n + (2 ^ 64 - 1)) % 2 ^ 64

/-- The anchor-sampling loop of `TextStyle::buildLine` (textStyle.cpp lines
143-155): `for (size_t i = 0; i < _line.size() - 1; i += skipOffset)`,
skipping sub-segments shorter than `minLength` and submitting a line label
for the others.  The C loop has no iteration bound of its own, so the model
carries explicit fuel; the termination theorem shows `line.length + 1` fuel
suffices for every non-empty line while no amount of fuel finishes the loop
on an empty line (whose bound underflowed). -/
def buildLineLoop (text : String) (params : Parameters) (line : List (ℚ × ℚ))
    (skip bound : Nat) : Nat → Nat → Option (List BuiltLabel)
  | _, 0 => none
  | i, fuel + 1 =>
    if i < bound then
      let p1 := line.getD i (0, 0)
      let p2 := line.getD (i + 1) (0, 0)
      match buildLineLoop text params line skip bound (i + skip) fuel with
      | none => none
      | some rest =>
          if lengthSq (p2 - p1) < minLength * minLength then some rest
          else some (⟨text, p1, p2, LabelType.line, params,
            optionsFromTextParams params⟩ :: rest)
    else some []

/-- `TextStyle::buildLine` (textStyle.cpp lines 125-157): visibility gate,
text resolution, emptiness gate, then the sampling loop with stride
`floor(lineLength / 2)`. -/
def TextStyle.buildLine (ts : TextStyle) (line : List (ℚ × ℚ)) (rule : DrawRule)
    (props : Properties) : Option (List BuiltLabel) :=
  let params := ts.parseRule rule
  if params.visible = false then some [] else
  let text := applyTextSource params props
  if text.length = 0 then some [] else
  buildLineLoop text params line (line.length / 2) (sizeTSub1 line.length) 0
    (line.length + 1)

/-- `TextStyle::buildPoint` (textStyle.cpp lines 109-123). -/
def TextStyle.buildPoint (ts : TextStyle) (point : ℚ × ℚ) (rule : DrawRule)
    (props : Properties) : List BuiltLabel :=
  let params := ts.parseRule rule
  if params.visible = false then [] else
  let text := applyTextSource params props
  if text.length = 0 then [] else
  [⟨text, point, point, LabelType.point, params, optionsFromTextParams params⟩]

/-- The centroid accumulation of `TextStyle::buildPolygon` (textStyle.cpp
lines 172-181): sum the coordinates of every vertex of every ring and count
them. -/
def polygonCentroidFold (polygon : List (List (ℚ × ℚ))) : (ℚ × ℚ) × Nat :=
  polygon.foldl (fun acc ring =>
    ring.foldl (fun acc2 p => ((acc2.1.1 + p.1, acc2.1.2 + p.2), acc2.2 + 1)) acc)
    ((0, 0), 0)

/-- `TextStyle::buildPolygon` (textStyle.cpp lines 159-187): gates, centroid
accumulation, zero-vertex bail-out, division by the count, one point
label. -/
def TextStyle.buildPolygon (ts : TextStyle) (polygon : List (List (ℚ × ℚ)))
    (rule : DrawRule) (props : Properties) : List BuiltLabel :=
  let params := ts.parseRule rule
  if params.visible = false then [] else
  let text := applyTextSource params props
  if text.length = 0 then [] else
  let cn := polygonCentroidFold polygon
  if cn.2 = 0 then [] else
  let c : ℚ × ℚ := (cn.1.1 / (cn.2 : ℚ), cn.1.2 / (cn.2 : ℚ))
  [⟨text, c, c, LabelType.point, params, optionsFromTextParams params⟩]

/-- Ring-level characterization of the centroid accumulation: folding one
ring adds its coordinate sums and its vertex count. -/
lemma ringFold_eq (ring : List (ℚ × ℚ)) : ∀ acc : (ℚ × ℚ) × Nat,
    ring.foldl (fun acc2 p => ((acc2.1.1 + p.1, acc2.1.2 + p.2), acc2.2 + 1)) acc =
      ((acc.1.1 + (ring.map Prod.fst).sum, acc.1.2 + (ring.map Prod.snd).sum),
       acc.2 + ring.length) := by
  induction ring with
  | nil => intro acc; simp
  | cons p ring ih =>
    intro acc
    rw [List.foldl_cons, ih]
    simp only [List.map_cons, List.sum_cons, List.length_cons, Prod.mk.injEq]
    refine ⟨⟨by ring, by ring⟩, by omega⟩

/-- The centroid accumulation over the whole polygon equals the coordinate
sums and vertex count of the flattened ring list. -/
lemma polygonCentroidFold_eq (polygon : List (List (ℚ × ℚ))) :
    polygonCentroidFold polygon =
      (((polygon.flatten.map Prod.fst).sum, (polygon.flatten.map Prod.snd).sum),
       polygon.flatten.length) := by
  suffices h : ∀ acc : (ℚ × ℚ) × Nat,
      polygon.foldl (fun acc ring =>
        ring.foldl (fun acc2 p => ((acc2.1.1 + p.1, acc2.1.2 + p.2), acc2.2 + 1)) acc) acc =
        ((acc.1.1 + (polygon.flatten.map Prod.fst).sum,
          acc.1.2 + (polygon.flatten.map Prod.snd).sum),
         acc.2 + polygon.flatten.length) by
    rw [polygonCentroidFold, h ((0, 0), 0)]
    simp
  induction polygon with
  | nil => intro acc; simp
  | cons ring rings ih =>
    intro acc
    rw [List.foldl_cons, ih, ringFold_eq]
    simp only [List.flatten_cons, List.map_append, List.sum_append, List.length_append,
      Prod.mk.injEq]
    refine ⟨⟨by ring, by ring⟩, by omega⟩

/-- C7: `buildPolygon` produces at most one label; a polygon with zero
vertices across all rings produces none; and any produced label is anchored
(in both transform slots) at the unweighted arithmetic mean of all vertices
flattened across all rings. -/
theorem buildPolygon_centroid (ts : TextStyle) (polygon : List (List (ℚ × ℚ)))
    (rule : DrawRule) (props : Properties) :
    (ts.buildPolygon polygon rule props).length ≤ 1 ∧
    (polygon.flatten.length = 0 → ts.buildPolygon polygon rule props = []) ∧
    (∀ lbl ∈ ts.buildPolygon polygon rule props,
      lbl.t1 = ((polygon.flatten.map Prod.fst).sum / (polygon.flatten.length : ℚ),
                (polygon.flatten.map Prod.snd).sum / (polygon.flatten.length : ℚ)) ∧
      lbl.t2 = lbl.t1) := by
  by_cases hv : (ts.parseRule rule).visible = false
  · simp [TextStyle.buildPolygon, hv]
  · by_cases ht : (applyTextSource (ts.parseRule rule) props).length = 0
    · simp [TextStyle.buildPolygon, hv, ht]
    · have heval : ts.buildPolygon polygon rule props =
        if polygon.flatten.length = 0 then ([] : List BuiltLabel) else
          [⟨applyTextSource (ts.parseRule rule) props,
            ((polygon.flatten.map Prod.fst).sum / (polygon.flatten.length : ℚ),
             (polygon.flatten.map Prod.snd).sum / (polygon.flatten.length : ℚ)),
            ((polygon.flatten.map Prod.fst).sum / (polygon.flatten.length : ℚ),
             (polygon.flatten.map Prod.snd).sum / (polygon.flatten.length : ℚ)),
            LabelType.point, ts.parseRule rule,
            optionsFromTextParams (ts.parseRule rule)⟩] := by
        simp only [TextStyle.buildPolygon, if_neg hv, if_neg ht, polygonCentroidFold_eq]
      rw [heval]
      by_cases hn : polygon.flatten.length = 0
      · rw [if_pos hn]
        exact ⟨by simp, fun _ => rfl, by simp⟩
      · rw [if_neg hn]
        refine ⟨by simp, fun h => absurd h hn, ?_⟩
        intro lbl hmem
        rw [List.mem_singleton] at hmem
        subst hmem
        exact ⟨rfl, rfl⟩

/-- Witness for C7: a polygon consisting of one empty ring has zero
vertices, hence produces no label. -/
theorem buildPolygon_centroid_witness :
    TextStyle.buildPolygon ⟨1, false, false⟩ [[]]
      ⟨"", "", "", 0, 0, (0, 0), 0, 0, "", true, 0, "A"⟩ ⟨fun _ => ""⟩ = [] :=
  (buildPolygon_centroid ⟨1, false, false⟩ [[]]
    ⟨"", "", "", 0, 0, (0, 0), 0, 0, "", true, 0, "A"⟩ ⟨fun _ => ""⟩).2.1 rfl

/-- Every label emitted by the sampling loop carries the resolved text. -/
lemma buildLineLoop_text (text : String) (params : Parameters) (line : List (ℚ × ℚ))
    (skip bound : Nat) :
    ∀ (fuel i : Nat) (out : List BuiltLabel),
      buildLineLoop text params line skip bound i fuel = some out →
      ∀ lbl ∈ out, lbl.text = text := by
  intro fuel
  induction fuel with
  | zero =>
    intro i out h
    simp [buildLineLoop] at h
  | succ fuel ih =>
    intro i out h
    by_cases hib : i < bound
    · rw [buildLineLoop, if_pos hib] at h
      dsimp only at h
      cases hr : buildLineLoop text params line skip bound (i + skip) fuel with
      | none => rw [hr] at h; simp at h
      | some rest =>
        rw [hr] at h
        dsimp only at h
        by_cases hshort : lengthSq (line.getD (i + 1) (0, 0) - line.getD i (0, 0)) <
            minLength * minLength
        · rw [if_pos hshort] at h
          injection h with h2
          subst h2
          exact ih (i + skip) _ hr
        · rw [if_neg hshort] at h
          injection h with h2
          subst h2
          intro lbl hmem
          rcases List.mem_cons.mp hmem with hlbl | hlbl
          · rw [hlbl]
          · exact ih (i + skip) _ hr lbl hlbl
    · rw [buildLineLoop, if_neg hib] at h
      injection h with h2
      subst h2
      intro lbl hmem
      simp at hmem

/-- C8: for every build call, the label text is the rule's text-source
value when that value is non-empty and the feature's "name" property
otherwise; and when the rule is invisible or the resolved text is empty, no
label is emitted by any of the three builders. -/
theorem textSource_resolution_and_gating (ts : TextStyle) (rule : DrawRule)
    (props : Properties) (point : ℚ × ℚ) (line : List (ℚ × ℚ))
    (polygon : List (List (ℚ × ℚ))) :
    (rule.textSource ≠ "" →
      applyTextSource (ts.parseRule rule) props = rule.textSource) ∧
    (rule.textSource = "" →
      applyTextSource (ts.parseRule rule) props = props.getString "name") ∧
    ((ts.parseRule rule).visible = false ∨ applyTextSource (ts.parseRule rule) props = "" →
      ts.buildPoint point rule props = [] ∧
      ts.buildLine line rule props = some [] ∧
      ts.buildPolygon polygon rule props = []) ∧
    (∀ lbl ∈ ts.buildPoint point rule props,
      lbl.text = applyTextSource (ts.parseRule rule) props) ∧
    (∀ out, ts.buildLine line rule props = some out →
      ∀ lbl ∈ out, lbl.text = applyTextSource (ts.parseRule rule) props) ∧
    (∀ lbl ∈ ts.buildPolygon polygon rule props,
      lbl.text = applyTextSource (ts.parseRule rule) props) := by
  have hts : (ts.parseRule rule).textSource = rule.textSource := rfl
  refine ⟨?_, ?_, ?_, ?_, ?_, ?_⟩
  · intro hne
    simp [applyTextSource, hts, String.isEmpty_iff, hne]
  · intro he
    simp [applyTextSource, hts, String.isEmpty_iff, he]
  · intro hgate
    by_cases hv : (ts.parseRule rule).visible = false
    · exact ⟨by simp [TextStyle.buildPoint, hv], by simp [TextStyle.buildLine, hv],
        by simp [TextStyle.buildPolygon, hv]⟩
    · have htext : applyTextSource (ts.parseRule rule) props = "" := by
        rcases hgate with hgate | hgate
        · exact absurd hgate hv
        · exact hgate
      have hlen : (applyTextSource (ts.parseRule rule) props).length = 0 := by
        rw [htext]
        rfl
      exact ⟨by simp [TextStyle.buildPoint, hlen], by simp [TextStyle.buildLine, hlen],
        by simp [TextStyle.buildPolygon, hlen]⟩
  · intro lbl hmem
    by_cases hv : (ts.parseRule rule).visible = false
    · simp [TextStyle.buildPoint, hv] at hmem
    · by_cases hlen : (applyTextSource (ts.parseRule rule) props).length = 0
      · simp [TextStyle.buildPoint, hv, hlen] at hmem
      · simp only [TextStyle.buildPoint, if_neg hv, if_neg hlen,
          List.mem_singleton] at hmem
        rw [hmem]
  · intro out hout lbl hmem
    by_cases hv : (ts.parseRule rule).visible = false
    · simp only [TextStyle.buildLine, if_neg ?_, if_pos hv] at hout
      · injection hout with h2
        subst h2
        simp at hmem
    · by_cases hlen : (applyTextSource (ts.parseRule rule) props).length = 0
      · simp only [TextStyle.buildLine, if_neg hv, if_pos hlen] at hout
        injection hout with h2
        subst h2
        simp at hmem
      · simp only [TextStyle.buildLine, if_neg hv, if_neg hlen] at hout
        exact buildLineLoop_text _ _ line _ _ _ _ out hout lbl hmem
  · intro lbl hmem
    by_cases hv : (ts.parseRule rule).visible = false
    · simp [TextStyle.buildPolygon, hv] at hmem
    · by_cases hlen : (applyTextSource (ts.parseRule rule) props).length = 0
      · simp [TextStyle.buildPolygon, hv, hlen] at hmem
      · by_cases hn : (polygonCentroidFold polygon).2 = 0
        · simp [TextStyle.buildPolygon, hv, hlen, hn] at hmem
        · simp only [TextStyle.buildPolygon, if_neg hv, if_neg hlen, if_neg hn,
            List.mem_singleton] at hmem
          rw [hmem]

/-- Witness for C8: an empty explicit text source falls back to the "name"
property, and an invisible rule emits nothing from any builder. -/
theorem textSource_resolution_and_gating_witness :
    applyTextSource
      (TextStyle.parseRule ⟨1, false, false⟩ ⟨"", "", "", 0, 0, (0, 0), 0, 0, "", true, 0, ""⟩)
      ⟨fun _ => "N"⟩ =
      (⟨fun _ => "N"⟩ : Properties).getString "name" ∧
    TextStyle.buildPoint ⟨1, false, false⟩ (0, 0)
      ⟨"", "", "", 0, 0, (0, 0), 0, 0, "", false, 0, "A"⟩ ⟨fun _ => ""⟩ = [] :=
  ⟨(textSource_resolution_and_gating ⟨1, false, false⟩
      ⟨"", "", "", 0, 0, (0, 0), 0, 0, "", true, 0, ""⟩ ⟨fun _ => "N"⟩ (0, 0) [] []).2.1 rfl,
   ((textSource_resolution_and_gating ⟨1, false, false⟩
      ⟨"", "", "", 0, 0, (0, 0), 0, 0, "", false, 0, "A"⟩ ⟨fun _ => ""⟩ (0, 0) [] []).2.2.1
      (Or.inl rfl)).1⟩

/-- With a zero stride (any line of fewer than 2 points) and a positive
bound, the sampling loop re-examines index 0 forever: no fuel finishes
it. -/
lemma buildLineLoop_zero_skip_none (text : String) (params : Parameters)
    (line : List (ℚ × ℚ)) (bound : Nat) (hb : 0 < bound) :
    ∀ fuel, buildLineLoop text params line 0 bound 0 fuel = none := by
  intro fuel
  induction fuel with
  | zero => rfl
  | succ fuel ih =>
    rw [buildLineLoop, if_pos hb]
    dsimp only
    rw [Nat.add_zero, ih]

/-- With a positive stride, fuel exceeding the remaining distance to the
bound finishes the sampling loop. -/
lemma buildLineLoop_isSome (text : String) (params : Parameters) (line : List (ℚ × ℚ))
    (skip bound : Nat) (hskip : 1 ≤ skip) :
    ∀ (fuel i : Nat), bound - i < fuel →
      (buildLineLoop text params line skip bound i fuel).isSome := by
  intro fuel
  induction fuel with
  | zero =>
    intro i h
    omega
  | succ fuel ih =>
    intro i h
    by_cases hib : i < bound
    · have hrec := ih (i + skip) (by omega)
      rw [Option.isSome_iff_exists] at hrec
      obtain ⟨rest, hrest⟩ := hrec
      rw [buildLineLoop, if_pos hib]
      dsimp only
      rw [hrest]
      dsimp only
      by_cases hshort : lengthSq (line.getD (i + 1) (0, 0) - line.getD i (0, 0)) <
          minLength * minLength
      · rw [if_pos hshort]
        rfl
      · rw [if_neg hshort]
        rfl
    · rw [buildLineLoop, if_neg hib]
      rfl

/-- C9: the sampling loop of `buildLine` terminates for every non-empty
line — fuel `line.length + 1` suffices at the stride and bound the caller
computes — while for an empty line the `size_t` bound `0 - 1` underflows to
`2^64 - 1`, the stride `floor(0 / 2)` is zero, and the loop never
finishes, whatever the fuel: termination requires the non-empty
precondition. -/
theorem buildLineLoop_termination (text : String) (params : Parameters)
    (line : List (ℚ × ℚ)) :
    (1 ≤ line.length → line.length < 2 ^ 64 →
      (buildLineLoop text params line (line.length / 2) (sizeTSub1 line.length) 0
        (line.length + 1)).isSome) ∧
    (line.length = 0 →
      sizeTSub1 line.length = 2 ^ 64 - 1 ∧ line.length / 2 = 0 ∧
      ∀ fuel, buildLineLoop text params line (line.length / 2) (sizeTSub1 line.length) 0
        fuel = none) := by
  constructor
  · intro h1 h2
    rcases Nat.lt_or_ge line.length 2 with hlen | hlen
    · have hone : line.length = 1 := by omega
      rw [hone]
      have hb : sizeTSub1 1 = 0 := by
        unfold sizeTSub1
        omega
      rw [hb]
      rw [buildLineLoop, if_neg (by omega)]
      rfl
    · have hb : sizeTSub1 line.length = line.length - 1 := by
        unfold sizeTSub1
        omega
      rw [hb]
      exact buildLineLoop_isSome text params line (line.length / 2) (line.length - 1)
        (by omega) (line.length + 1) 0 (by omega)
  · intro h0
    have hb : sizeTSub1 line.length = 2 ^ 64 - 1 := by
      unfold sizeTSub1
      omega
    have hs : line.length / 2 = 0 := by omega
    refine ⟨hb, hs, ?_⟩
    intro fuel
    rw [hb, hs]
    exact buildLineLoop_zero_skip_none text params line (2 ^ 64 - 1) (by norm_num) fuel

/-- Witness for C9: a one-point line finishes with its default fuel; the
empty line's loop returns nothing even with fuel left over. -/
theorem buildLineLoop_termination_witness :
    (buildLineLoop "t" ⟨"", 0, 0, (0, 0), 0, 0, "", TextTransform.noTransform, true, 0, 0⟩
      [((0 : ℚ), (0 : ℚ))] (List.length [((0 : ℚ), (0 : ℚ))] / 2)
      (sizeTSub1 (List.length [((0 : ℚ), (0 : ℚ))])) 0
      (List.length [((0 : ℚ), (0 : ℚ))] + 1)).isSome ∧
    buildLineLoop "t" ⟨"", 0, 0, (0, 0), 0, 0, "", TextTransform.noTransform, true, 0, 0⟩
      ([] : List (ℚ × ℚ)) (List.length ([] : List (ℚ × ℚ)) / 2)
      (sizeTSub1 (List.length ([] : List (ℚ × ℚ)))) 0 7 = none :=
  ⟨(buildLineLoop_termination "t" ⟨"", 0, 0, (0, 0), 0, 0, "", TextTransform.noTransform,
      true, 0, 0⟩ [((0 : ℚ), (0 : ℚ))]).1 (by norm_num) (by norm_num),
   ((buildLineLoop_termination "t" ⟨"", 0, 0, (0, 0), 0, 0, "", TextTransform.noTransform,
      true, 0, 0⟩ ([] : List (ℚ × ℚ))).2 rfl).2.2 7⟩

/-- C6 (amended): `buildLine` samples at a stride of `floor(pointCount/2)`
under the loop guard `i < pointCount - 1`, skipping sub-segments shorter
than the 0.15 threshold; for a line of 9 points with no sub-segment below
the threshold this produces labels at starting indices 0 and 4 — the guard
stops the loop before index 8. -/
theorem buildLine_nine_stride (ts : TextStyle) (rule : DrawRule) (props : Properties)
    (p0 p1 p2 p3 p4 p5 p6 p7 p8 : ℚ × ℚ)
    (hvis : (ts.parseRule rule).visible = true)
    (htext : ¬ (applyTextSource (ts.parseRule rule) props).length = 0)
    (hseg : ¬ lengthSq (p1 - p0) < minLength * minLength ∧
            ¬ lengthSq (p2 - p1) < minLength * minLength ∧
            ¬ lengthSq (p3 - p2) < minLength * minLength ∧
            ¬ lengthSq (p4 - p3) < minLength * minLength ∧
            ¬ lengthSq (p5 - p4) < minLength * minLength ∧
            ¬ lengthSq (p6 - p5) < minLength * minLength ∧
            ¬ lengthSq (p7 - p6) < minLength * minLength ∧
            ¬ lengthSq (p8 - p7) < minLength * minLength) :
    ts.buildLine [p0, p1, p2, p3, p4, p5, p6, p7, p8] rule props =
      some [⟨applyTextSource (ts.parseRule rule) props, p0, p1, LabelType.line,
              ts.parseRule rule, optionsFromTextParams (ts.parseRule rule)⟩,
            ⟨applyTextSource (ts.parseRule rule) props, p4, p5, LabelType.line,
              ts.parseRule rule, optionsFromTextParams (ts.parseRule rule)⟩] := by
  have h0 := hseg.1
  have h4 := hseg.2.2.2.2.1
  unfold TextStyle.buildLine
  dsimp only
  rw [if_neg (by simp [hvis]), if_neg htext]
  rw [show List.length [p0, p1, p2, p3, p4, p5, p6, p7, p8] = 9 from rfl]
  rw [show sizeTSub1 9 = 8 from by unfold sizeTSub1; omega]
  rw [show (9 : ℕ) / 2 = 4 from rfl]
  have e8 : buildLineLoop (applyTextSource (ts.parseRule rule) props) (ts.parseRule rule)
      [p0, p1, p2, p3, p4, p5, p6, p7, p8] 4 8 8 8 = some [] := by
    rw [show (8 : ℕ) = 7 + 1 from rfl, buildLineLoop, if_neg (by norm_num)]
  have e4 : buildLineLoop (applyTextSource (ts.parseRule rule) props) (ts.parseRule rule)
      [p0, p1, p2, p3, p4, p5, p6, p7, p8] 4 8 4 9 =
      some [⟨applyTextSource (ts.parseRule rule) props, p4, p5, LabelType.line,
        ts.parseRule rule, optionsFromTextParams (ts.parseRule rule)⟩] := by
    rw [show (9 : ℕ) = 8 + 1 from rfl, buildLineLoop, if_pos (by norm_num)]
    dsimp only
    rw [show (4 : ℕ) + 4 = 8 from rfl, e8]
    dsimp only
    rw [show List.getD [p0, p1, p2, p3, p4, p5, p6, p7, p8] (4 + 1) (0, 0) = p5 from rfl,
      show List.getD [p0, p1, p2, p3, p4, p5, p6, p7, p8] 4 (0, 0) = p4 from rfl,
      if_neg h4]
  rw [show (9 : ℕ) + 1 = 9 + 1 from rfl, buildLineLoop, if_pos (by norm_num)]
  dsimp only
  rw [show (0 : ℕ) + 4 = 4 from rfl, e4]
  dsimp only
  rw [show List.getD [p0, p1, p2, p3, p4, p5, p6, p7, p8] (0 + 1) (0, 0) = p1 from rfl,
    show List.getD [p0, p1, p2, p3, p4, p5, p6, p7, p8] 0 (0, 0) = p0 from rfl,
    if_neg h0]

/-- Counterexample for C6: a 9-point line with unit-length segments (all
far above the 0.15 threshold) yields exactly two labels, anchored at the
segments starting at indices 0 and 4 — not three labels at {0, 4, 8}: the
loop guard `i < size - 1` stops at `i = 8` since `8 < 8` fails. -/
theorem buildLine_nine_stride_counterexample :
    (TextStyle.buildLine ⟨1, false, false⟩
        [((0 : ℚ), (0 : ℚ)), (1, 0), (2, 0), (3, 0), (4, 0), (5, 0), (6, 0), (7, 0), (8, 0)]
        ⟨"", "", "", 0, 0, (0, 0), 0, 0, "", true, 0, "A"⟩ ⟨fun _ => ""⟩).map
      (List.map (fun lbl => (lbl.t1, lbl.t2))) =
      some [((0, 0), (1, 0)), ((4, 0), (5, 0))] ∧
    (TextStyle.buildLine ⟨1, false, false⟩
        [((0 : ℚ), (0 : ℚ)), (1, 0), (2, 0), (3, 0), (4, 0), (5, 0), (6, 0), (7, 0), (8, 0)]
        ⟨"", "", "", 0, 0, (0, 0), 0, 0, "", true, 0, "A"⟩ ⟨fun _ => ""⟩).map
      List.length = some 2 := by
  have h := buildLine_nine_stride ⟨1, false, false⟩
    ⟨"", "", "", 0, 0, (0, 0), 0, 0, "", true, 0, "A"⟩ ⟨fun _ => ""⟩
    (0, 0) (1, 0) (2, 0) (3, 0) (4, 0) (5, 0) (6, 0) (7, 0) (8, 0)
    rfl (by simp [applyTextSource, TextStyle.parseRule]; rw [show ("A".isEmpty) = false from rfl]; simp; rw [show ("A".length) = 1 from rfl]; omega)
    (by norm_num [lengthSq, minLength, Prod.mk_sub_mk])
  rw [h]
  exact ⟨rfl, rfl⟩

/-- Witness for C6 (amended) at the concrete 9-point line with unit
segments. -/
theorem buildLine_nine_stride_witness :
    TextStyle.buildLine ⟨1, false, false⟩
      [((0 : ℚ), (0 : ℚ)), (1, 0), (2, 0), (3, 0), (4, 0), (5, 0), (6, 0), (7, 0), (8, 0)]
      ⟨"", "", "", 0, 0, (0, 0), 0, 0, "", true, 0, "A"⟩ ⟨fun _ => ""⟩ =
      some [⟨applyTextSource (TextStyle.parseRule ⟨1, false, false⟩
              ⟨"", "", "", 0, 0, (0, 0), 0, 0, "", true, 0, "A"⟩) ⟨fun _ => ""⟩,
              ((0 : ℚ), (0 : ℚ)), (1, 0), LabelType.line,
              TextStyle.parseRule ⟨1, false, false⟩
                ⟨"", "", "", 0, 0, (0, 0), 0, 0, "", true, 0, "A"⟩,
              optionsFromTextParams (TextStyle.parseRule ⟨1, false, false⟩
                ⟨"", "", "", 0, 0, (0, 0), 0, 0, "", true, 0, "A"⟩)⟩,
            ⟨applyTextSource (TextStyle.parseRule ⟨1, false, false⟩
              ⟨"", "", "", 0, 0, (0, 0), 0, 0, "", true, 0, "A"⟩) ⟨fun _ => ""⟩,
              ((4 : ℚ), (0 : ℚ)), (5, 0), LabelType.line,
              TextStyle.parseRule ⟨1, false, false⟩
                ⟨"", "", "", 0, 0, (0, 0), 0, 0, "", true, 0, "A"⟩,
              optionsFromTextParams (TextStyle.parseRule ⟨1, false, false⟩
                ⟨"", "", "", 0, 0, (0, 0), 0, 0, "", true, 0, "A"⟩)⟩] :=
  buildLine_nine_stride ⟨1, false, false⟩ ⟨"", "", "", 0, 0, (0, 0), 0, 0, "", true, 0, "A"⟩
    ⟨fun _ => ""⟩ (0, 0) (1, 0) (2, 0) (3, 0) (4, 0) (5, 0) (6, 0) (7, 0) (8, 0)
    rfl (by simp [applyTextSource, TextStyle.parseRule]; rw [show ("A".isEmpty) = false from rfl]; simp; rw [show ("A".length) = 1 from rfl]; omega)
    (by norm_num [lengthSq, minLength, Prod.mk_sub_mk])
